import Mathlib

/-!
Verification development for the Active Units / Talkgroups / Visitor Tracking
API (`active_units_api.py`).

The Python program is shallowly embedded as executable Lean functions:

* timestamps from `time.time()` are `Int` seconds;
* SQLite `TEXT` timestamps (column `dateTime`, compared with the binary
  collation) are `String`, ordered by the lexicographic comparison `strLe`;
* Python dicts (`_cache`, `_visitors`, the system-name map) are association
  lists with unique keys maintained by `dictSet` (insertion order preserved,
  updates in place, exactly like a Python dict);
* the SQL aggregation query (GROUP BY label, MIN/MAX/COUNT, ORDER BY
  last_seen_dt DESC LIMIT 200) is modelled relationally over the table
  contents, with group order given by first occurrence in the store's
  natural row order and a stable insertion sort for ORDER BY;
* the Python stdlib `datetime.fromisoformat` / `datetime.isoformat` pair is
  an external collaborator and is passed in as an abstract `PyDatetimeLib`;
* the fallible SQLite lookup of `rdioScannerSystems` is an `Except` value.
-/

/-- `CACHE_TIMEOUT = 5` seconds (source line 24). -/
def CACHE_TIMEOUT : Int := 5

/-- `VISITOR_TIMEOUT = 300` seconds (source line 25). -/
def VISITOR_TIMEOUT : Int := 300

/-- Lexicographic (code-point) comparison of character lists; this is the
order SQLite's binary collation puts on `TEXT` values (restricted to the
ASCII timestamps the program handles). -/
def lexLe : List Char → List Char → Bool
  | [], _ => true
  | _ :: _, [] => false
  | a :: as, b :: bs => if a = b then lexLe as bs else decide (a < b)

/-- `a <= b` on strings under the binary collation. -/
def strLe (a b : String) : Bool := lexLe a.data b.data

/-- SQLite `TRIM`: strip leading and trailing space characters. -/
def trimSpaces (s : String) : String :=
  let cs := s.data.dropWhile (fun c => c = ' ')
  String.mk ((cs.reverse.dropWhile (fun c => c = ' ')).reverse)

/-- Python `dict.get`: the key is unique in maps maintained by `dictSet`. -/
def dictGet {κ α : Type} [DecidableEq κ] (m : List (κ × α)) (k : κ) : Option α :=
  (m.find? (fun p => decide (p.1 = k))).map (fun p => p.2)

/-- Python `d[k] = v`: update in place if the key is present (keeping its
position), otherwise append (insertion order). -/
def dictSet {κ α : Type} [DecidableEq κ] (m : List (κ × α)) (k : κ) (v : α) :
    List (κ × α) :=
  if m.any (fun p => decide (p.1 = k)) then
    m.map (fun p => if p.1 = k then (k, v) else p)
  else m ++ [(k, v)]

/-- One row of `rdioScannerCalls` (the columns the program reads). -/
structure Call where
  dateTime : String
  source : Int
  talkgroup : Int
  system : Int
deriving DecidableEq, Repr

/-- One row of a label dimension table (`rdioScannerUnits` or
`rdioScannerTalkgroups`): columns `systemId`, `id`, `label`
(`label` is nullable). -/
structure Dim where
  systemId : Int
  id : Int
  label : Option String
deriving DecidableEq, Repr

/-- One row produced by the aggregation query: `entity_id` is the
`unit_id` / `talkgroup_id` alias (`MIN(c.source)` resp.
`MIN(c.talkgroup)`), `last_seen_dt = MAX(c.dateTime)`,
`system_id = MIN(c.system)`, `seen_count = COUNT(*)`. -/
structure GroupAgg where
  entity_id : Int
  last_seen_dt : String
  system_id : Int
  label : String
  seen_count : Nat
deriving DecidableEq, Repr

/-- One element of the JSON response array (`unit_id` / `talkgroup_id`
generalised to `entity_id`). -/
structure AggRow where
  entity_id : Int
  label : String
  system_id : Int
  system_name : String
  seen_count : Nat
  last_seen_iso : Option String
  agency : String
deriving DecidableEq, Repr

/-- Python `datetime` object as far as the program observes it: an opaque
naive part plus an optional timezone (`some 0` is `timezone.utc`). -/
structure PyDateTime where
  naive : String
  tz : Option Int
deriving DecidableEq, Repr

/-- The stdlib datetime operations the program calls; external to the
repository, hence abstract parameters of the embedding.
`fromisoformat` returns `none` when Python would raise. -/
structure PyDatetimeLib where
  fromisoformat : String → Option PyDateTime
  isoformat : PyDateTime → String

/-- The `rdioScannerSystems` table as observed through `PRAGMA table_info`
and `SELECT id, <col> ...`: its column names, and for each column the
(id, value) rows of that projection. -/
structure SystemsTable where
  cols : List String
  colValues : String → List (Int × String)

/-- The external SQLite store as the two endpoints observe it; `systems` is
`Except.error ()` when querying `rdioScannerSystems` raises. -/
structure DB where
  calls : List Call
  units : List Dim
  talkgroups : List Dim
  systems : Except Unit SystemsTable

/-- The process-wide mutable state: `_cache` (key -> (timestamp, data)) and
`_visitors` (ip -> last_seen), source lines 47-48. -/
structure ServerState where
  cache : List (String × Int × List AggRow)
  visitors : List (String × Int)
deriving Repr

/-- `get_cached_data` (source lines 56-62): return the stored data only if
`time.time() - timestamp < CACHE_TIMEOUT`, else `None`. -/
def get_cached_data (now : Int) (cache : List (String × Int × List AggRow))
    (key : String) : Option (List AggRow) :=
  match dictGet cache key with
  | some entry => if now - entry.1 < CACHE_TIMEOUT then some entry.2 else none
  | none => none

/-- `set_cached_data` (source lines 64-65). -/
def set_cached_data (now : Int) (cache : List (String × Int × List AggRow))
    (key : String) (data : List AggRow) : List (String × Int × List AggRow) :=
  dictSet cache key (now, data)

/-- `track_visitor` (source lines 68-82): record `now` for `ip`, delete
every entry with `now - last_seen > VISITOR_TIMEOUT`, return the ip and
the size of the resulting dict. -/
def track_visitor (ip : String) (now : Int) (visitors : List (String × Int)) :
    (String × Nat) × List (String × Int) :=
  let m1 := dictSet visitors ip now
  let m2 := m1.filter (fun p => !decide (now - p.2 > VISITOR_TIMEOUT))
  ((ip, m2.length), m2)

/-- The column-name priority list probed by `get_system_name_map`
(source line 88). -/
def NAME_COL_CANDIDATES : List String := ["name", "label", "shortName", "short_name"]

/-- `next((c for c in (...) if c in cols), None)` (source line 88). -/
def detect_name_col (cols : List String) : Option String :=
  NAME_COL_CANDIDATES.find? (fun c => decide (c ∈ cols))

/-- `get_system_name_map` (source lines 84-94): `{}` when the lookup raises
or no descriptive column exists; otherwise the dict comprehension
`{row id: row name}` over `SELECT id, <col> FROM rdioScannerSystems`. -/
def get_system_name_map (res : Except Unit SystemsTable) : List (Int × String) :=
  match res with
  | Except.error _ => []
  | Except.ok t =>
    match detect_name_col t.cols with
    | none => []
    | some c => (t.colValues c).foldl (fun m p => dictSet m p.1 p.2) []

/-- `system_names.get(system_id, f"System {system_id}")`
(source lines 151 and 222). -/
def system_name_for (names : List (Int × String)) (sid : Int) : String :=
  match dictGet names sid with
  | some n => n
  | none => s!"System {sid}"

/-- The `last_seen_iso` computation (source lines 153-159 and 224-230):
`None` for a falsy raw value; on parse success render via `isoformat`
after substituting UTC for a missing timezone; on parse failure fall back
to `str(raw)`, which for the `TEXT` column is the raw string itself. -/
def renderLastSeen (lib : PyDatetimeLib) (raw : String) : Option String :=
  if raw = "" then none
  else
    match lib.fromisoformat raw with
    | some dt => some (lib.isoformat (if dt.tz = none then { dt with tz := some 0 } else dt))
    | none => some raw

/-- Build one JSON row from an aggregation row (source lines 161-169 and
232-240); `agency` duplicates `system_name`. -/
def renderRow (lib : PyDatetimeLib) (names : List (Int × String)) (g : GroupAgg) : AggRow :=
  let sysName := system_name_for names g.system_id
  { entity_id := g.entity_id
    label := g.label
    system_id := g.system_id
    system_name := sysName
    seen_count := g.seen_count
    last_seen_iso := renderLastSeen lib g.last_seen_dt
    agency := sysName }

/-- The SQL JOIN `rdioScannerCalls c JOIN <dim> ON systemId = c.system AND
id = proj c`, in the store's natural row order (calls outer). `proj` is
`c.source` for units and `c.talkgroup` for talkgroups. -/
def joinRows (calls : List Call) (dims : List Dim) (proj : Call → Int) :
    List (Call × Dim) :=
  calls.flatMap (fun c =>
    (dims.filter (fun d => decide (d.systemId = c.system) && decide (d.id = proj c))).map
      (fun d => (c, d)))

/-- The WHERE clause: `c.dateTime >= cutoff AND label IS NOT NULL AND
TRIM(label) != ''`. -/
def rowQualifies (cutoff : String) (p : Call × Dim) : Bool :=
  strLe cutoff p.1.dateTime &&
    match p.2.label with
    | none => false
    | some l => decide (trimSpaces l ≠ "")

/-- The joined rows surviving the WHERE clause, in natural row order. -/
def qualRows (cutoff : String) (calls : List Call) (dims : List Dim)
    (proj : Call → Int) : List (Call × Dim) :=
  (joinRows calls dims proj).filter (rowQualifies cutoff)

/-- Collect GROUP BY keys in order of first occurrence. -/
def collectLabels : List (Call × Dim) → List String → List String
  | [], acc => acc
  | p :: ps, acc =>
    match p.2.label with
    | some l => collectLabels ps (if l ∈ acc then acc else acc ++ [l])
    | none => collectLabels ps acc

/-- The distinct labels of the qualifying rows, first occurrence first. -/
def labelsOf (rows : List (Call × Dim)) : List String := collectLabels rows []

/-- The rows of one GROUP BY group. -/
def groupOf (rows : List (Call × Dim)) (l : String) : List (Call × Dim) :=
  rows.filter (fun p => decide (p.2.label = some l))

/-- SQL `MIN` over the integer values of a group (the group is never
empty; the default is irrelevant). -/
def listMinInt : List Int → Int
  | [] => 0
  | x :: xs => xs.foldl min x

/-- Binary max under the binary collation. -/
def strMax (a b : String) : String := if strLe a b then b else a

/-- SQL `MAX` over the `TEXT` values of a group. -/
def listMaxStr : List String → String
  | [] => ""
  | x :: xs => xs.foldl strMax x

/-- The SELECT aggregates of one group (source lines 126-131 / 197-202). -/
def aggFor (rows : List (Call × Dim)) (proj : Call → Int) (l : String) : GroupAgg :=
  let g := groupOf rows l
  { entity_id := listMinInt (g.map (fun p => proj p.1))
    last_seen_dt := listMaxStr (g.map (fun p => p.1.dateTime))
    system_id := listMinInt (g.map (fun p => p.1.system))
    label := l
    seen_count := g.length }

/-- All groups of the aggregation query, one per distinct label, in the
store's natural row order of first occurrence. -/
def groupRows (cutoff : String) (calls : List Call) (dims : List Dim)
    (proj : Call → Int) : List GroupAgg :=
  let q := qualRows cutoff calls dims proj
  (labelsOf q).map (aggFor q proj)

/-- Descending order on `last_seen_dt` (the `ORDER BY` relation). -/
def aggDesc (a b : GroupAgg) : Prop := strLe b.last_seen_dt a.last_seen_dt = true

instance : DecidableRel aggDesc :=
  fun a b => inferInstanceAs (Decidable (strLe b.last_seen_dt a.last_seen_dt = true))

/-- `ORDER BY last_seen_dt DESC`, ties kept in natural row order
(stable sort). -/
def sortDesc (l : List GroupAgg) : List GroupAgg := List.insertionSort aggDesc l

/-- The full aggregation query: group, order descending, `LIMIT 200`. -/
def aggregatePipeline (cutoff : String) (calls : List Call) (dims : List Dim)
    (proj : Call → Int) : List GroupAgg :=
  (sortDesc (groupRows cutoff calls dims proj)).take 200

/-- The store query plus response shaping of `active_units`
(source lines 122-169). -/
def computeUnits (lib : PyDatetimeLib) (cutoff : String) (db : DB) : List AggRow :=
  let names := get_system_name_map db.systems
  (aggregatePipeline cutoff db.calls db.units (fun c => c.source)).map (renderRow lib names)

/-- The store query plus response shaping of `active_talkgroups`
(source lines 193-240). -/
def computeTalkgroups (lib : PyDatetimeLib) (cutoff : String) (db : DB) : List AggRow :=
  let names := get_system_name_map db.systems
  (aggregatePipeline cutoff db.calls db.talkgroups (fun c => c.talkgroup)).map
    (renderRow lib names)

/-- The handlers' `cached = get_cached_data(...); if cached:` test: a
Python list is truthy iff non-empty, so a fresh empty payload falls
through to the miss path. -/
def cacheTruthy (o : Option (List AggRow)) : Option (List AggRow) :=
  match o with
  | some l => if l.isEmpty then none else some l
  | none => none

/-- The `active_units` handler (source lines 98-172), success path:
track the visitor, consult the cache, on miss run the store query and
cache the result. Returns (response payload, new state, whether the
store was queried). -/
def active_units_core (lib : PyDatetimeLib) (now : Int) (cutoff : String) (db : DB)
    (st : ServerState) (ip : String) : List AggRow × ServerState × Bool :=
  let tv := track_visitor ip now st.visitors
  let st1 : ServerState := { st with visitors := tv.2 }
  match cacheTruthy (get_cached_data now st1.cache "active_units") with
  | some cached => (cached, st1, false)
  | none =>
    let results := computeUnits lib cutoff db
    (results, { st1 with cache := set_cached_data now st1.cache "active_units" results }, true)

/-- The `active_talkgroups` handler (source lines 181-243), success path:
identical to `active_units_core` except that no visitor is tracked. -/
def active_talkgroups_core (lib : PyDatetimeLib) (now : Int) (cutoff : String) (db : DB)
    (st : ServerState) : List AggRow × ServerState × Bool :=
  match cacheTruthy (get_cached_data now st.cache "active_talkgroups") with
  | some cached => (cached, st, false)
  | none =>
    let results := computeTalkgroups lib cutoff db
    (results, { st with cache := set_cached_data now st.cache "active_talkgroups" results }, true)

/-- The `/api/status` handler (source lines 251-258): raw visitor-map
size, its keys, and whether the cache dict is non-empty; no sweep, no
state change. -/
def server_status (st : ServerState) : Nat × List String × Bool :=
  (st.visitors.length, st.visitors.map (fun p => p.1), !st.cache.isEmpty)

/-! ### Order lemmas for the binary collation -/

theorem lexLe_refl (l : List Char) : lexLe l l = true := by
  induction l with
  | nil => rfl
  | cons a as ih => simp [lexLe, ih]

theorem lexLe_total (a b : List Char) : lexLe a b = true ∨ lexLe b a = true := by
  induction a generalizing b with
  | nil => left; rfl
  | cons x xs ih =>
    cases b with
    | nil => right; rfl
    | cons y ys =>
      by_cases hxy : x = y
      · subst hxy
        simp only [lexLe, if_pos rfl]
        exact ih ys
      · rcases lt_trichotomy x y with h | h | h
        · left; simp [lexLe, hxy, h]
        · exact absurd h hxy
        · right
          have hyx : y ≠ x := fun e => hxy e.symm
          simp [lexLe, hyx, h]

theorem lexLe_trans {a b c : List Char} (h1 : lexLe a b = true) (h2 : lexLe b c = true) :
    lexLe a c = true := by
  induction a generalizing b c with
  | nil => rfl
  | cons x xs ih =>
    cases b with
    | nil => simp [lexLe] at h1
    | cons y ys =>
      cases c with
      | nil => simp [lexLe] at h2
      | cons z zs =>
        simp only [lexLe] at h1 h2 ⊢
        by_cases hxy : x = y
        · subst hxy
          rw [if_pos rfl] at h1
          by_cases hxz : x = z
          · subst hxz
            rw [if_pos rfl] at h2 ⊢
            exact ih h1 h2
          · rw [if_neg hxz] at h2 ⊢
            exact h2
        · rw [if_neg hxy] at h1
          by_cases hyz : y = z
          · subst hyz
            rw [if_neg hxy]
            exact h1
          · rw [if_neg hyz] at h2
            have hxz : x < z := lt_trans (of_decide_eq_true h1) (of_decide_eq_true h2)
            have hne : x ≠ z := ne_of_lt hxz
            simp [hne, hxz]

theorem strLe_refl (a : String) : strLe a a = true := lexLe_refl a.data

theorem strLe_total (a b : String) : strLe a b = true ∨ strLe b a = true :=
  lexLe_total a.data b.data

theorem strLe_trans {a b c : String} (h1 : strLe a b = true) (h2 : strLe b c = true) :
    strLe a c = true := lexLe_trans h1 h2

theorem strLe_of_eq {a b : String} (h : a = b) : strLe a b = true := h ▸ strLe_refl a

/-! ### Fold lemmas for the SQL MIN / MAX aggregates -/

theorem foldl_min_le_init (l : List Int) : ∀ a : Int, l.foldl min a ≤ a := by
  induction l with
  | nil => intro a; exact le_refl a
  | cons x xs ih => intro a; exact le_trans (ih (min a x)) (min_le_left a x)

theorem foldl_min_le_mem (l : List Int) : ∀ a v : Int, v ∈ l → l.foldl min a ≤ v := by
  induction l with
  | nil => intro a v hv; cases hv
  | cons x xs ih =>
    intro a v hv
    rcases List.mem_cons.1 hv with rfl | hv
    · exact le_trans (foldl_min_le_init xs (min a v)) (min_le_right a v)
    · exact ih (min a x) v hv

theorem foldl_min_mem (l : List Int) : ∀ a : Int, l.foldl min a ∈ a :: l := by
  induction l with
  | nil => intro a; exact List.mem_singleton.2 rfl
  | cons x xs ih =>
    intro a
    simp only [List.foldl_cons]
    rcases List.mem_cons.1 (ih (min a x)) with h1 | h1
    · rcases min_choice a x with h2 | h2
      · rw [h1, h2]; exact List.mem_cons_self _ _
      · rw [h1, h2]; exact List.mem_cons_of_mem _ (List.mem_cons_self _ _)
    · exact List.mem_cons_of_mem _ (List.mem_cons_of_mem _ h1)

theorem listMinInt_le (l : List Int) (v : Int) (hv : v ∈ l) : listMinInt l ≤ v := by
  cases l with
  | nil => cases hv
  | cons x xs =>
    rcases List.mem_cons.1 hv with rfl | h
    · exact foldl_min_le_init xs v
    · exact foldl_min_le_mem xs x v h

theorem listMinInt_mem (l : List Int) (h : l ≠ []) : listMinInt l ∈ l := by
  cases l with
  | nil => exact absurd rfl h
  | cons x xs => exact foldl_min_mem xs x

theorem strLe_left_strMax (a b : String) : strLe a (strMax a b) = true := by
  unfold strMax
  cases h : strLe a b with
  | true => simp [h]
  | false => simp [h, strLe_refl]

theorem strLe_right_strMax (a b : String) : strLe b (strMax a b) = true := by
  unfold strMax
  cases h : strLe a b with
  | true => simp [h, strLe_refl]
  | false =>
    simp only [h, Bool.false_eq_true, if_false]
    rcases strLe_total a b with h1 | h1
    · rw [h1] at h; cases h
    · exact h1

theorem strMax_choice (a b : String) : strMax a b = a ∨ strMax a b = b := by
  unfold strMax
  cases h : strLe a b with
  | true => right; simp [h]
  | false => left; simp [h]

theorem foldl_strMax_init_le (l : List String) :
    ∀ a : String, strLe a (l.foldl strMax a) = true := by
  induction l with
  | nil => intro a; exact strLe_refl a
  | cons x xs ih =>
    intro a
    exact strLe_trans (strLe_left_strMax a x) (ih (strMax a x))

theorem foldl_strMax_le_mem (l : List String) :
    ∀ a v : String, v ∈ l → strLe v (l.foldl strMax a) = true := by
  induction l with
  | nil => intro a v hv; cases hv
  | cons x xs ih =>
    intro a v hv
    rcases List.mem_cons.1 hv with rfl | hv
    · exact strLe_trans (strLe_right_strMax a v) (foldl_strMax_init_le xs (strMax a v))
    · exact ih (strMax a x) v hv

theorem foldl_strMax_mem (l : List String) : ∀ a : String, l.foldl strMax a ∈ a :: l := by
  induction l with
  | nil => intro a; exact List.mem_singleton.2 rfl
  | cons x xs ih =>
    intro a
    simp only [List.foldl_cons]
    rcases List.mem_cons.1 (ih (strMax a x)) with h1 | h1
    · rcases strMax_choice a x with h2 | h2
      · rw [h1, h2]; exact List.mem_cons_self _ _
      · rw [h1, h2]; exact List.mem_cons_of_mem _ (List.mem_cons_self _ _)
    · exact List.mem_cons_of_mem _ (List.mem_cons_of_mem _ h1)

theorem listMaxStr_ge (l : List String) (v : String) (hv : v ∈ l) :
    strLe v (listMaxStr l) = true := by
  cases l with
  | nil => cases hv
  | cons x xs =>
    rcases List.mem_cons.1 hv with rfl | h
    · exact foldl_strMax_init_le xs v
    · exact foldl_strMax_le_mem xs x v h

theorem listMaxStr_mem (l : List String) (h : l ≠ []) : listMaxStr l ∈ l := by
  cases l with
  | nil => exact absurd rfl h
  | cons x xs => exact foldl_strMax_mem xs x

/-! ### GROUP BY key collection -/

theorem collectLabels_nodup (rows : List (Call × Dim)) :
    ∀ acc : List String, acc.Nodup → (collectLabels rows acc).Nodup := by
  induction rows with
  | nil => intro acc h; exact h
  | cons p ps ih =>
    intro acc h
    cases hl : p.2.label with
    | none => simp only [collectLabels, hl]; exact ih acc h
    | some l =>
      simp only [collectLabels, hl]
      by_cases hmem : l ∈ acc
      · rw [if_pos hmem]; exact ih acc h
      · rw [if_neg hmem]
        refine ih _ ?_
        rw [List.nodup_append]
        exact ⟨h, List.nodup_singleton l, by
          intro a ha hb
          rw [List.mem_singleton] at hb
          subst hb
          exact hmem ha⟩

theorem mem_collectLabels (rows : List (Call × Dim)) :
    ∀ (acc : List String) (l : String), l ∈ collectLabels rows acc →
      l ∈ acc ∨ ∃ p, p ∈ rows ∧ p.2.label = some l := by
  induction rows with
  | nil => intro acc l h; exact Or.inl h
  | cons p ps ih =>
    intro acc l h
    cases hl : p.2.label with
    | none =>
      simp only [collectLabels, hl] at h
      rcases ih _ _ h with h1 | ⟨q, hq, hql⟩
      · exact Or.inl h1
      · exact Or.inr ⟨q, List.mem_cons_of_mem _ hq, hql⟩
    | some l' =>
      simp only [collectLabels, hl] at h
      rcases ih _ _ h with h1 | ⟨q, hq, hql⟩
      · by_cases hmem : l' ∈ acc
        · rw [if_pos hmem] at h1; exact Or.inl h1
        · rw [if_neg hmem] at h1
          rcases List.mem_append.1 h1 with h2 | h2
          · exact Or.inl h2
          · rw [List.mem_singleton] at h2
            subst h2
            exact Or.inr ⟨p, List.mem_cons_self _ _, hl⟩
      · exact Or.inr ⟨q, List.mem_cons_of_mem _ hq, hql⟩

theorem labelsOf_nodup (rows : List (Call × Dim)) : (labelsOf rows).Nodup :=
  collectLabels_nodup rows [] List.nodup_nil

theorem labelsOf_mem (rows : List (Call × Dim)) (l : String) (h : l ∈ labelsOf rows) :
    ∃ p, p ∈ rows ∧ p.2.label = some l := by
  rcases mem_collectLabels rows [] l h with h1 | h1
  · cases h1
  · exact h1

theorem groupOf_ne_nil (rows : List (Call × Dim)) (l : String)
    (h : ∃ p, p ∈ rows ∧ p.2.label = some l) : groupOf rows l ≠ [] := by
  rcases h with ⟨p, hp, hpl⟩
  have : p ∈ groupOf rows l := List.mem_filter.2 ⟨hp, by simp [hpl]⟩
  exact List.ne_nil_of_mem this

/-! ### The ORDER BY sort: permutation, sortedness, stability -/

instance : IsTotal GroupAgg aggDesc :=
  ⟨fun a b => strLe_total b.last_seen_dt a.last_seen_dt⟩

instance : IsTrans GroupAgg aggDesc :=
  ⟨fun _ _ _ h1 h2 => strLe_trans h2 h1⟩

theorem sortDesc_perm (l : List GroupAgg) : List.Perm (sortDesc l) l :=
  List.perm_insertionSort aggDesc l

theorem sortDesc_sorted (l : List GroupAgg) : List.Pairwise aggDesc (sortDesc l) :=
  List.sorted_insertionSort aggDesc l

theorem filter_key_orderedInsert (k : String) (x : GroupAgg) (l : List GroupAgg) :
    (List.orderedInsert aggDesc x l).filter (fun g => decide (g.last_seen_dt = k)) =
      (if x.last_seen_dt = k then [x] else []) ++
        l.filter (fun g => decide (g.last_seen_dt = k)) := by
  induction l with
  | nil =>
    simp only [List.orderedInsert, List.append_nil]
    by_cases hx : x.last_seen_dt = k <;> simp [List.filter, hx]
  | cons y ys ih =>
    simp only [List.orderedInsert]
    by_cases hxy : aggDesc x y
    · rw [if_pos hxy]
      by_cases hx : x.last_seen_dt = k <;> simp [List.filter_cons, hx]
    · rw [if_neg hxy]
      have hyk : y.last_seen_dt ≠ x.last_seen_dt := by
        intro he
        exact hxy (strLe_of_eq he)
      by_cases hx : x.last_seen_dt = k
      · have hy : y.last_seen_dt ≠ k := fun e => hyk (e.trans hx.symm)
        simp [List.filter_cons, hx, hy, ih]
      · by_cases hy : y.last_seen_dt = k <;> simp [List.filter_cons, hx, hy, ih]

theorem sortDesc_stable (k : String) (l : List GroupAgg) :
    (sortDesc l).filter (fun g => decide (g.last_seen_dt = k)) =
      l.filter (fun g => decide (g.last_seen_dt = k)) := by
  induction l with
  | nil => rfl
  | cons x xs ih =>
    have hstep : sortDesc (x :: xs) = List.orderedInsert aggDesc x (sortDesc xs) := rfl
    rw [hstep, filter_key_orderedInsert k x (sortDesc xs), ih]
    by_cases hx : x.last_seen_dt = k <;> simp [List.filter_cons, hx]

/-! ### Dict and visitor-map lemmas -/

theorem mem_dictSet_self {κ α : Type} [DecidableEq κ] (m : List (κ × α)) (k : κ) (v : α) :
    (k, v) ∈ dictSet m k v := by
  unfold dictSet
  by_cases h : m.any (fun p => decide (p.1 = k)) = true
  · rw [if_pos h]
    rcases List.any_eq_true.1 h with ⟨p, hp, hpk⟩
    refine List.mem_map.2 ⟨p, hp, ?_⟩
    rw [if_pos (of_decide_eq_true hpk)]
  · rw [if_neg h]
    exact List.mem_append_right _ (List.mem_singleton.2 rfl)

theorem track_visitor_result (ip : String) (now : Int) (vis : List (String × Int)) :
    (track_visitor ip now vis).2 =
      (dictSet vis ip now).filter (fun p => !decide (now - p.2 > VISITOR_TIMEOUT)) := rfl

theorem track_visitor_count (ip : String) (now : Int) (vis : List (String × Int)) :
    (track_visitor ip now vis).1.2 = (track_visitor ip now vis).2.length := rfl

theorem track_visitor_sweep (ip : String) (now : Int) (vis : List (String × Int)) :
    (track_visitor ip now vis).2.all (fun p => !decide (now - p.2 > VISITOR_TIMEOUT)) = true := by
  rw [List.all_eq_true]
  intro p hp
  rw [track_visitor_result] at hp
  exact (List.mem_filter.1 hp).2

theorem track_visitor_mem_self (ip : String) (now : Int) (vis : List (String × Int)) :
    (ip, now) ∈ (track_visitor ip now vis).2 := by
  rw [track_visitor_result]
  refine List.mem_filter.2 ⟨mem_dictSet_self vis ip now, ?_⟩
  simp [VISITOR_TIMEOUT]

/-! ### Cache and handler unfolding lemmas -/

theorem get_cached_data_eq (now : Int) (cache : List (String × Int × List AggRow))
    (key : String) (t0 : Int) (data : List AggRow)
    (h : dictGet cache key = some (t0, data)) :
    get_cached_data now cache key =
      if now - t0 < CACHE_TIMEOUT then some data else none := by
  unfold get_cached_data
  rw [h]

theorem active_units_core_eq (lib : PyDatetimeLib) (now : Int) (cutoff : String) (db : DB)
    (st : ServerState) (ip : String) :
    active_units_core lib now cutoff db st ip =
      match cacheTruthy (get_cached_data now st.cache "active_units") with
      | some cached => (cached, { st with visitors := (track_visitor ip now st.visitors).2 }, false)
      | none =>
        (computeUnits lib cutoff db,
         { cache := set_cached_data now st.cache "active_units" (computeUnits lib cutoff db),
           visitors := (track_visitor ip now st.visitors).2 }, true) := rfl

theorem active_talkgroups_core_eq (lib : PyDatetimeLib) (now : Int) (cutoff : String)
    (db : DB) (st : ServerState) :
    active_talkgroups_core lib now cutoff db st =
      match cacheTruthy (get_cached_data now st.cache "active_talkgroups") with
      | some cached => (cached, st, false)
      | none =>
        (computeTalkgroups lib cutoff db,
         { st with
             cache := set_cached_data now st.cache "active_talkgroups"
               (computeTalkgroups lib cutoff db) }, true) := rfl

theorem cacheTruthy_some_of_ne_nil (data : List AggRow) (h : data ≠ []) :
    cacheTruthy (some data) = some data := by
  unfold cacheTruthy
  cases data with
  | nil => exact absurd rfl h
  | cons a l => rfl

/-! ### Pipeline membership and label lemmas -/

theorem mem_groupRows_of_mem_pipeline (cutoff : String) (calls : List Call) (dims : List Dim)
    (proj : Call → Int) (g : GroupAgg) (hg : g ∈ aggregatePipeline cutoff calls dims proj) :
    ∃ l, l ∈ labelsOf (qualRows cutoff calls dims proj) ∧
      g = aggFor (qualRows cutoff calls dims proj) proj l := by
  unfold aggregatePipeline at hg
  have h1 : g ∈ sortDesc (groupRows cutoff calls dims proj) :=
    (List.take_sublist _ _).subset hg
  have h2 : g ∈ groupRows cutoff calls dims proj := (sortDesc_perm _).subset h1
  simp only [groupRows] at h2
  rcases List.mem_map.1 h2 with ⟨l, hl, he⟩
  exact ⟨l, hl, he.symm⟩

theorem groupRows_labels (cutoff : String) (calls : List Call) (dims : List Dim)
    (proj : Call → Int) :
    (groupRows cutoff calls dims proj).map (fun g => g.label) =
      labelsOf (qualRows cutoff calls dims proj) := by
  simp only [groupRows, List.map_map]
  have h : ((fun g : GroupAgg => g.label) ∘ aggFor (qualRows cutoff calls dims proj) proj) =
      id := funext (fun l => rfl)
  rw [h, List.map_id]

theorem pipeline_labels_nodup (cutoff : String) (calls : List Call) (dims : List Dim)
    (proj : Call → Int) :
    ((aggregatePipeline cutoff calls dims proj).map (fun g => g.label)).Nodup := by
  have h1 : ((sortDesc (groupRows cutoff calls dims proj)).map (fun g => g.label)).Nodup := by
    refine (List.Perm.nodup_iff ((sortDesc_perm _).map _)).2 ?_
    rw [groupRows_labels]
    exact labelsOf_nodup _
  unfold aggregatePipeline
  rw [List.map_take]
  exact List.Nodup.sublist (List.take_sublist _ _) h1

/-- Claim C3: in the aggregated output of either endpoint, no label occurs
twice: events sharing a label, whatever their raw identities, collapse into
one output entity, and this survives sorting, truncation and rendering. -/
theorem claim_c3 (lib : PyDatetimeLib) (cutoff : String) (db : DB) :
    ((computeUnits lib cutoff db).map (fun r => r.label)).Nodup ∧
    ((computeTalkgroups lib cutoff db).map (fun r => r.label)).Nodup := by
  constructor
  · unfold computeUnits
    rw [List.map_map]
    have h : ((fun r : AggRow => r.label) ∘
        renderRow lib (get_system_name_map db.systems)) = fun g : GroupAgg => g.label :=
      funext (fun g => rfl)
    rw [h]
    exact pipeline_labels_nodup _ _ _ _
  · unfold computeTalkgroups
    rw [List.map_map]
    have h : ((fun r : AggRow => r.label) ∘
        renderRow lib (get_system_name_map db.systems)) = fun g : GroupAgg => g.label :=
      funext (fun g => rfl)
    rw [h]
    exact pipeline_labels_nodup _ _ _ _

/-- Claim C4: every row of the aggregation output carries exactly the
reference aggregates of its label group among the qualifying events:
`seen_count` is the group size, `last_seen_dt` is the maximum event time
of the group (a member that bounds all members from above in the store's
collation), and `entity_id` and `system_id` are the minima of the group's
identities and system ids. -/
theorem claim_c4 (cutoff : String) (calls : List Call) (dims : List Dim)
    (proj : Call → Int) (g : GroupAgg)
    (hg : g ∈ aggregatePipeline cutoff calls dims proj) :
    g.seen_count = (groupOf (qualRows cutoff calls dims proj) g.label).length ∧
    g.last_seen_dt ∈
      (groupOf (qualRows cutoff calls dims proj) g.label).map (fun p => p.1.dateTime) ∧
    (∀ t ∈ (groupOf (qualRows cutoff calls dims proj) g.label).map (fun p => p.1.dateTime),
      strLe t g.last_seen_dt = true) ∧
    g.entity_id ∈
      (groupOf (qualRows cutoff calls dims proj) g.label).map (fun p => proj p.1) ∧
    (∀ v ∈ (groupOf (qualRows cutoff calls dims proj) g.label).map (fun p => proj p.1),
      g.entity_id ≤ v) ∧
    g.system_id ∈
      (groupOf (qualRows cutoff calls dims proj) g.label).map (fun p => p.1.system) ∧
    (∀ v ∈ (groupOf (qualRows cutoff calls dims proj) g.label).map (fun p => p.1.system),
      g.system_id ≤ v) := by
  rcases mem_groupRows_of_mem_pipeline cutoff calls dims proj g hg with ⟨l, hl, rfl⟩
  have hlbl : (aggFor (qualRows cutoff calls dims proj) proj l).label = l := rfl
  rw [hlbl]
  have hne : groupOf (qualRows cutoff calls dims proj) l ≠ [] :=
    groupOf_ne_nil _ _ (labelsOf_mem _ _ hl)
  have hmapne : ∀ f : Call × Dim → String,
      (groupOf (qualRows cutoff calls dims proj) l).map f ≠ [] := by
    intro f he
    exact hne (List.map_eq_nil_iff.1 he)
  have hmapneI : ∀ f : Call × Dim → Int,
      (groupOf (qualRows cutoff calls dims proj) l).map f ≠ [] := by
    intro f he
    exact hne (List.map_eq_nil_iff.1 he)
  refine ⟨rfl, ?_, ?_, ?_, ?_, ?_, ?_⟩
  · exact listMaxStr_mem _ (hmapne _)
  · intro t ht
    exact listMaxStr_ge _ t ht
  · exact listMinInt_mem _ (hmapneI _)
  · intro v hv
    exact listMinInt_le _ v hv
  · exact listMinInt_mem _ (hmapneI _)
  · intro v hv
    exact listMinInt_le _ v hv

/-- Witness for C4 at a concrete store: one call joined to one unit row. -/
theorem claim_c4_witness :
    (⟨1, "2024-01-01 10:00:00", 5, "FIRE1", 1⟩ : GroupAgg) ∈
      aggregatePipeline "2024-01-01 09:00:00" [⟨"2024-01-01 10:00:00", 1, 7, 5⟩]
        [⟨5, 1, some "FIRE1"⟩] (fun c => c.source) ∧
    (⟨1, "2024-01-01 10:00:00", 5, "FIRE1", 1⟩ : GroupAgg).seen_count =
      (groupOf (qualRows "2024-01-01 09:00:00" [⟨"2024-01-01 10:00:00", 1, 7, 5⟩]
        [⟨5, 1, some "FIRE1"⟩] (fun c => c.source)) "FIRE1").length := by
  have hg : (⟨1, "2024-01-01 10:00:00", 5, "FIRE1", 1⟩ : GroupAgg) ∈
      aggregatePipeline "2024-01-01 09:00:00" [⟨"2024-01-01 10:00:00", 1, 7, 5⟩]
        [⟨5, 1, some "FIRE1"⟩] (fun c => c.source) := by decide
  exact ⟨hg, (claim_c4 _ _ _ _ _ hg).1⟩

/-- Claim C5: the aggregation result is sorted by `last_seen_dt`
descending, ties are resolved stably (filtering the sorted group list to
any fixed `last_seen_dt` value yields exactly the groups in the store's
natural row order), and the output is truncated to at most 200 entries
before and after rendering. -/
theorem claim_c5 (lib : PyDatetimeLib) (cutoff : String) (db : DB) (calls : List Call)
    (dims : List Dim) (proj : Call → Int) :
    (aggregatePipeline cutoff calls dims proj).length ≤ 200 ∧
    List.Pairwise aggDesc (aggregatePipeline cutoff calls dims proj) ∧
    (∀ k : String,
      (sortDesc (groupRows cutoff calls dims proj)).filter
          (fun g => decide (g.last_seen_dt = k)) =
        (groupRows cutoff calls dims proj).filter (fun g => decide (g.last_seen_dt = k))) ∧
    (computeUnits lib cutoff db).length ≤ 200 ∧
    (computeTalkgroups lib cutoff db).length ≤ 200 := by
  refine ⟨?_, ?_, ?_, ?_, ?_⟩
  · unfold aggregatePipeline
    exact List.length_take_le _ _
  · unfold aggregatePipeline
    exact List.Pairwise.sublist (List.take_sublist _ _) (sortDesc_sorted _)
  · intro k
    exact sortDesc_stable k _
  · unfold computeUnits
    rw [List.length_map]
    exact List.length_take_le _ _
  · unfold computeTalkgroups
    rw [List.length_map]
    exact List.length_take_le _ _

/-! ### Concrete instantiation helpers for witnesses and counterexamples -/

/-- A concrete stand-in for the stdlib datetime pair: every parse fails. -/
def trivLib : PyDatetimeLib :=
  { fromisoformat := fun _ => none, isoformat := fun d => d.naive }

/-- An empty event store whose systems lookup raises. -/
def emptyDB : DB := ⟨[], [], [], Except.error ()⟩

/-- Counterexample to claim C1 as stated: the first `active-units` request
on an empty store caches the empty payload at time 0; the second request
at time 3 is within TTL of the store, yet the handler performs a second
store query (`if cached:` treats the fresh empty list as a miss). -/
theorem claim_c1_counterexample :
    (active_units_core trivLib 0 "c" emptyDB ⟨[], []⟩ "ip").1 = [] ∧
    ((3 : Int) - 0 < CACHE_TIMEOUT) ∧
    (active_units_core trivLib 3 "c" emptyDB
        (active_units_core trivLib 0 "c" emptyDB ⟨[], []⟩ "ip").2.1 "ip").2.2 = true := by
  refine ⟨rfl, by decide, rfl⟩

/-- Claim C1 as amended: for a NON-EMPTY stored payload, a call within TTL
of `stored_at` returns the stored payload unchanged with no store query
and no cache write; a call at or past TTL queries the store again. The
talkgroups handler behaves the same and additionally leaves the whole
state untouched on a fresh hit. -/
theorem claim_c1_amended (lib : PyDatetimeLib) (now : Int) (cutoff : String) (db : DB)
    (st : ServerState) (ip : String) (t0 : Int) (data : List AggRow)
    (hu : dictGet st.cache "active_units" = some (t0, data))
    (hdata : data ≠ []) :
    (now - t0 < CACHE_TIMEOUT →
      active_units_core lib now cutoff db st ip =
        (data, { st with visitors := (track_visitor ip now st.visitors).2 }, false)) ∧
    (CACHE_TIMEOUT ≤ now - t0 →
      (active_units_core lib now cutoff db st ip).2.2 = true) ∧
    (∀ t1 d1, dictGet st.cache "active_talkgroups" = some (t1, d1) → d1 ≠ [] →
      now - t1 < CACHE_TIMEOUT →
      active_talkgroups_core lib now cutoff db st = (d1, st, false)) := by
  refine ⟨?_, ?_, ?_⟩
  · intro h
    rw [active_units_core_eq, get_cached_data_eq now st.cache _ t0 data hu, if_pos h,
      cacheTruthy_some_of_ne_nil data hdata]
  · intro h
    rw [active_units_core_eq, get_cached_data_eq now st.cache _ t0 data hu,
      if_neg (not_lt.2 h)]
    rfl
  · intro t1 d1 ht hd1 hf
    rw [active_talkgroups_core_eq, get_cached_data_eq now st.cache _ t1 d1 ht, if_pos hf,
      cacheTruthy_some_of_ne_nil d1 hd1]

/-- One concrete cached row for the C1 witness. -/
def row1 : AggRow := ⟨1, "L", 5, "System 5", 1, some "2024-01-01T10:00:00+00:00", "System 5"⟩

/-- Witness for the amended C1: a non-empty payload stored at time 0 is
served unchanged at time 3 with no store query. -/
theorem claim_c1_amended_witness :
    dictGet ([("active_units", ((0 : Int), [row1]))] : List (String × Int × List AggRow))
        "active_units" = some (0, [row1]) ∧
    active_units_core trivLib 3 "c" emptyDB ⟨[("active_units", (0, [row1]))], []⟩ "ip" =
      ([row1], ⟨[("active_units", (0, [row1]))], [("ip", 3)]⟩, false) := by
  refine ⟨by decide, ?_⟩
  exact (claim_c1_amended trivLib 3 "c" emptyDB ⟨[("active_units", (0, [row1]))], []⟩ "ip"
    0 [row1] (by decide) (by decide)).1 (by decide)

/-- Counterexample to claim C2 as stated: after a single touch of "A" at
time 0, the status operation evaluated when the current time is 400 still
reports 1 active visitor, although the record is 400 s stale (stale
records are only removed by the next touch). -/
theorem claim_c2_counterexample :
    (server_status ⟨[], (track_visitor "A" 0 []).2⟩).1 = 1 ∧
    ((track_visitor "A" 0 []).2.any
      (fun p => decide ((400 : Int) - p.2 > VISITOR_TIMEOUT))) = true := by
  exact ⟨rfl, by decide⟩

/-- Claim C2 as amended: the count returned by `touch` never includes a
record whose `last_seen` is more than `PRESENCE_TIMEOUT` before that
call's time (the sweep runs before the count is taken), while the status
operation reports the raw visitor-map size with no sweep. -/
theorem claim_c2_amended (ip : String) (now : Int) (vis : List (String × Int))
    (cache : List (String × Int × List AggRow)) :
    (track_visitor ip now vis).1.2 = (track_visitor ip now vis).2.length ∧
    (track_visitor ip now vis).2.all
      (fun p => decide (now - p.2 ≤ VISITOR_TIMEOUT)) = true ∧
    (server_status ⟨cache, vis⟩).1 = vis.length := by
  refine ⟨rfl, ?_, rfl⟩
  rw [List.all_eq_true]
  intro p hp
  have h := List.all_eq_true.1 (track_visitor_sweep ip now vis) p hp
  simp only [Bool.not_eq_true', decide_eq_false_iff_not, not_lt] at h
  simpa using h

/-- Counterexample to claim C6's scenario: touch "A" at 0, "B" at 10, "A"
again at 400 with `PRESENCE_TIMEOUT = 300`. "B" is then 390 s stale, so
the third call removes it as well: only the refreshed "A" remains and the
returned count is 1, not 2. -/
theorem claim_c6_counterexample :
    track_visitor "A" 400 (track_visitor "B" 10 ((track_visitor "A" 0 []).2)).2 =
      (("A", 1), [("A", (400 : Int))]) := by decide

/-- Claim C6 as amended: `touch(identity)` records `now` for the identity,
removes every record older than `PRESENCE_TIMEOUT`, and returns the size
of the resulting map (so in the spec's scenario "B", last seen 390 s
earlier, is also removed and the count is 1). -/
theorem claim_c6_amended (ip : String) (now : Int) (vis : List (String × Int)) :
    ((track_visitor ip now vis).2.any
      (fun p => decide (p.1 = ip) && decide (p.2 = now))) = true ∧
    (track_visitor ip now vis).1.2 = (track_visitor ip now vis).2.length ∧
    (track_visitor ip now vis).2.all
      (fun p => !decide (now - p.2 > VISITOR_TIMEOUT)) = true ∧
    (track_visitor ip now vis).2 =
      (dictSet vis ip now).filter (fun p => !decide (now - p.2 > VISITOR_TIMEOUT)) := by
  refine ⟨?_, rfl, track_visitor_sweep ip now vis, rfl⟩
  rw [List.any_eq_true]
  exact ⟨(ip, now), track_visitor_mem_self ip now vis, by simp⟩

/-- Claim C7: a fresh cached EMPTY payload never takes the hit path: both
handlers re-run the store query although the cache entry is within TTL,
because `if cached:` tests truthiness rather than presence. -/
theorem claim_c7 (lib : PyDatetimeLib) (now : Int) (cutoff : String) (db : DB)
    (st : ServerState) (ip : String) (t0 : Int)
    (hu : dictGet st.cache "active_units" = some (t0, []))
    (ht : dictGet st.cache "active_talkgroups" = some (t0, []))
    (hf : now - t0 < CACHE_TIMEOUT) :
    (active_units_core lib now cutoff db st ip).2.2 = true ∧
    (active_talkgroups_core lib now cutoff db st).2.2 = true := by
  constructor
  · rw [active_units_core_eq, get_cached_data_eq now st.cache _ t0 [] hu, if_pos hf]
    rfl
  · rw [active_talkgroups_core_eq, get_cached_data_eq now st.cache _ t0 [] ht, if_pos hf]
    rfl

/-- Witness for C7: both caches hold a fresh empty payload stored at time
0; at time 3 both handlers query the store. -/
theorem claim_c7_witness :
    dictGet ([("active_units", ((0 : Int), ([] : List AggRow))),
        ("active_talkgroups", ((0 : Int), ([] : List AggRow)))] :
        List (String × Int × List AggRow)) "active_units" = some (0, []) ∧
    ((3 : Int) - 0 < CACHE_TIMEOUT) ∧
    (active_units_core trivLib 3 "c" emptyDB
      ⟨[("active_units", (0, [])), ("active_talkgroups", (0, []))], []⟩ "ip").2.2 = true ∧
    (active_talkgroups_core trivLib 3 "c" emptyDB
      ⟨[("active_units", (0, [])), ("active_talkgroups", (0, []))], []⟩).2.2 = true := by
  refine ⟨by decide, by decide, ?_⟩
  have h := claim_c7 trivLib 3 "c" emptyDB
    ⟨[("active_units", (0, [])), ("active_talkgroups", (0, []))], []⟩ "ip" 0
    (by decide) (by decide) (by decide)
  exact ⟨h.1, h.2⟩

/-- Claim C8: name resolution is total and never fails a request: a failed
lookup yields the empty mapping, so does the absence of every candidate
descriptive column; and any system id absent from the mapping (in
particular when the mapping is empty) is rendered as "System <id>". -/
theorem claim_c8 (t : SystemsTable) (m : List (Int × String)) (sid : Int) :
    get_system_name_map (Except.error ()) = [] ∧
    (detect_name_col t.cols = none → get_system_name_map (Except.ok t) = []) ∧
    ((∀ c ∈ NAME_COL_CANDIDATES, c ∉ t.cols) → detect_name_col t.cols = none) ∧
    (dictGet m sid = none → system_name_for m sid = s!"System {sid}") ∧
    system_name_for [] sid = s!"System {sid}" := by
  refine ⟨rfl, ?_, ?_, ?_, rfl⟩
  · intro h
    simp only [get_system_name_map, h]
  · intro h
    unfold detect_name_col
    rw [List.find?_eq_none]
    intro c hc
    simpa using h c hc
  · intro h
    unfold system_name_for
    rw [h]

/-- Witness for C8: a schema with no candidate column resolves to the
empty mapping, and an id absent from a non-empty mapping synthesizes its
name. -/
theorem claim_c8_witness :
    get_system_name_map (Except.ok ⟨["foo"], fun _ => []⟩) = [] ∧
    system_name_for [(3, "Metro")] 7 = "System 7" := by
  have h := claim_c8 ⟨["foo"], fun _ => []⟩ [(3, "Metro")] 7
  exact ⟨h.2.1 (by decide), h.2.2.2.1 (by decide)⟩

/-- Claim C9: for each output row the raw `MAX(dateTime)` value is
rendered through `fromisoformat`/`isoformat`, substituting UTC when the
parsed value carries no zone; when parsing raises, the rendering degrades
to `str(raw)` (the raw string) instead of failing the response. -/
theorem claim_c9 (lib : PyDatetimeLib) (s : String) (hs : s ≠ "") :
    (lib.fromisoformat s = none → renderLastSeen lib s = some s) ∧
    (∀ dt, lib.fromisoformat s = some dt → dt.tz = none →
      renderLastSeen lib s = some (lib.isoformat { dt with tz := some 0 })) ∧
    (∀ dt, lib.fromisoformat s = some dt → dt.tz ≠ none →
      renderLastSeen lib s = some (lib.isoformat dt)) := by
  refine ⟨?_, ?_, ?_⟩
  · intro h
    unfold renderLastSeen
    rw [if_neg hs, h]
  · intro dt h htz
    unfold renderLastSeen
    rw [if_neg hs, h]
    simp only [htz, if_pos]
  · intro dt h htz
    unfold renderLastSeen
    rw [if_neg hs, h]
    simp [htz]

/-- Witness for C9: an unparseable timestamp falls back to the raw
string. -/
theorem claim_c9_witness :
    ("2024-13-99" : String) ≠ "" ∧
    renderLastSeen trivLib "2024-13-99" = some "2024-13-99" :=
  ⟨by decide, (claim_c9 trivLib "2024-13-99" (by decide)).1 rfl⟩

/-- Claim C10: only the units endpoint touches the presence tracker —
its post-state visitor map is exactly the result of `track_visitor`
(on hit and miss alike), while the talkgroups handler leaves the visitor
map unchanged in every case. -/
theorem claim_c10 (lib : PyDatetimeLib) (now : Int) (cutoff : String) (db : DB)
    (st : ServerState) (ip : String) :
    (active_units_core lib now cutoff db st ip).2.1.visitors =
      (track_visitor ip now st.visitors).2 ∧
    (active_talkgroups_core lib now cutoff db st).2.1.visitors = st.visitors := by
  constructor
  · rw [active_units_core_eq]
    cases cacheTruthy (get_cached_data now st.cache "active_units") with
    | some cached => rfl
    | none => rfl
  · rw [active_talkgroups_core_eq]
    cases cacheTruthy (get_cached_data now st.cache "active_talkgroups") with
    | some cached => rfl
    | none => rfl
